import Mathlib

/-!
Verification of the page-analyser worker (src/worker.ts, src/inspector-do.ts).

The TypeScript source is shallowly embedded: strings are `List Char`, the
hand-written regular expressions of `extractMetrics` are embedded as direct
scanners with the same matching semantics, JavaScript numbers that only ever
hold exact values (Lighthouse quality scores, CrUX percentiles) are modelled
as `ℚ`, and the Durable Object's storage is explicit state.
-/

namespace PageAnalyser

set_option maxRecDepth 100000

/-! ### Character and string utilities (JavaScript builtins) -/

/-- Lowercasing of the ASCII letters, the case folding exercised by the
`i` flag of the worker's regexes (their literals are all ASCII). -/
def lcChar (c : Char) : Char :=
  if 65 ≤ c.toNat ∧ c.toNat ≤ 90 then Char.ofNat (c.toNat + 32) else c

theorem toNat_ofNat_of_small {n : Nat} (h : n < 55296) :
    (Char.ofNat n).toNat = n := by
  rw [Char.ofNat, dif_pos (Or.inl h)]
  rfl

/-- If `lcChar c` is a character that is not a lowercase letter, then
lowercasing did nothing: `c` already was that character. -/
theorem lcChar_eq_of_nonletter {c d : Char} (h : lcChar c = d)
    (hd : d.toNat < 97 ∨ 122 < d.toNat) : c = d := by
  unfold lcChar at h
  split_ifs at h with hc
  · exfalso
    have h2 : (Char.ofNat (c.toNat + 32)).toNat = d.toNat := by rw [h]
    rw [toNat_ofNat_of_small (by omega)] at h2
    omega
  · exact h

theorem lcChar_eq_lt {c : Char} (h : lcChar c = '<') : c = '<' :=
  lcChar_eq_of_nonletter h (Or.inl (by decide))

theorem lcChar_eq_gt {c : Char} (h : lcChar c = '>') : c = '>' :=
  lcChar_eq_of_nonletter h (Or.inl (by decide))

/-- Case-insensitive prefix test: does `s` start with the pattern literal
`pat`, comparing characters through `lcChar`? -/
def startsWithCI : List Char → List Char → Bool
  | [], _ => true
  | _ :: _, [] => false
  | p :: ps, c :: cs => (lcChar c == lcChar p) && startsWithCI ps cs

/-- JavaScript `String.prototype.startsWith` (case sensitive). -/
def jsStartsWith (pat s : List Char) : Bool := List.isPrefixOf pat s

/-- The ASCII part of the JavaScript `\s` class and of `String.prototype.trim`
(the source never feeds the worker non-ASCII whitespace). -/
def isJsWs (c : Char) : Bool :=
  c == ' ' || c == '\t' || c == '\n' || c == '\r' || c == '\x0b' || c == '\x0c'

/-- JavaScript `String.prototype.trim` on character lists. -/
def trimChars (s : List Char) : List Char :=
  ((s.dropWhile isJsWs).reverse.dropWhile isJsWs).reverse

/-- Is `c` one of the two JavaScript string quote characters `"` and `'`
(the `["']` class of the worker's regexes)? -/
def isQuote (c : Char) : Bool := c == '"' || c.toNat == 39

/-- Does predicate `p` hold of some suffix of `s`?  This is `RegExp.test`:
a pattern matches a string iff it matches at some start position. -/
def existsAt (p : List Char → Bool) : List Char → Bool
  | [] => p []
  | s@(_ :: cs) => p s || existsAt p cs

/-- Case-insensitive substring test, `RegExp.test` for a literal pattern. -/
def containsCI (pat : List Char) (s : List Char) : Bool :=
  existsAt (fun t => startsWithCI pat t) s

/-! ### A model of the WHATWG URL parser (`new URL`) -/

/-- The two components of a parsed URL the worker reads. -/
structure URLParts where
  protocol : String
  hostname : String
deriving DecidableEq, Repr

def isAsciiAlpha (c : Char) : Bool :=
  ('a' ≤ c && c ≤ 'z') || ('A' ≤ c && c ≤ 'Z')

def isAsciiDigit (c : Char) : Bool := '0' ≤ c && c ≤ '9'

def isSchemeChar (c : Char) : Bool :=
  isAsciiAlpha c || isAsciiDigit c || c == '+' || c == '-' || c == '.'

def validSchemeChars : List Char → Bool
  | [] => false
  | c :: cs => isAsciiAlpha c && cs.all isSchemeChar

/-- The WHATWG special schemes whose URLs must carry a nonempty host
(`file` is omitted, the worker never meets it). -/
def isSpecialScheme (s : List Char) : Bool :=
  s == "http".data || s == "https".data || s == "ws".data ||
  s == "wss".data || s == "ftp".data

/-- Characters forbidden inside a host name (the WHATWG forbidden host code
points that can still occur after authority splitting). -/
def isForbiddenHostChar (c : Char) : Bool :=
  c == ' ' || c == '<' || c == '>' || c == '[' || c == ']' || c == '^' ||
  c == '|' || c == '"' || c == '\t' || c == '\n' || c == '\r' || c == '\x00'

/-- The part of an authority after the last `@` (userinfo stripping). -/
def afterLastAmp (l : List Char) : List Char :=
  ((l.reverse.takeWhile (fun c => !(c == '@')))).reverse

/-- Splits `hostPort` at the first `:`; the port must be empty or a number
of at most five digits not exceeding 65535. -/
def parseHostPort (hostPort : List Char) : Option (List Char) :=
  let host := hostPort.takeWhile (fun c => !(c == ':'))
  let rest := hostPort.dropWhile (fun c => !(c == ':'))
  match rest with
  | [] =>
    if host.any isForbiddenHostChar then none else some host
  | _ :: port =>
    if port.all isAsciiDigit && port.foldl (fun n c => 10 * n + (c.toNat - 48)) 0 ≤ 65535
        && !(host.any isForbiddenHostChar) then
      some host
    else none

/-- Models the WHATWG URL parser (`new URL(input)`) for the fragment of
behaviour the worker exercises: scheme recognition, authority and hostname
extraction for special and `//`-style URLs, the empty-host failure of
special schemes, forbidden host characters and port validation.
(IDNA, percent decoding and tab or newline stripping are out of scope;
the callers of this model never supply such inputs.)  `none` models the
constructor throwing `TypeError`. -/
def parseURL (s : List Char) : Option URLParts :=
  let schemeChars := s.takeWhile (fun c => !(c == ':'))
  let rest0 := s.dropWhile (fun c => !(c == ':'))
  match rest0 with
  | [] => none
  | _ :: rest =>
    if validSchemeChars schemeChars then
      let scheme := schemeChars.map lcChar
      if isSpecialScheme scheme then
        let r1 := rest.dropWhile (fun c => c == '/' || c == '\\')
        let auth := r1.takeWhile
          (fun c => !(c == '/' || c == '\\' || c == '?' || c == '#'))
        match parseHostPort (afterLastAmp auth) with
        | some host =>
          if host.isEmpty then none
          else some ⟨⟨scheme ++ [':']⟩, ⟨host.map lcChar⟩⟩
        | none => none
      else
        match rest with
        | '/' :: '/' :: r1 =>
          let auth := r1.takeWhile (fun c => !(c == '/' || c == '?' || c == '#'))
          match parseHostPort (afterLastAmp auth) with
          | some host => some ⟨⟨scheme ++ [':']⟩, ⟨host⟩⟩
          | none => none
        | _ => some ⟨⟨scheme ++ [':']⟩, ""⟩
    else none

/-! ### Pattern literals of extractMetrics (worker.ts 331-437) -/

def litH1 : List Char := "<h1".data
def litH1Close : List Char := "</h1>".data
def litH2 : List Char := "<h2".data
def litH3 : List Char := "<h3".data
def litImg : List Char := "<img".data
def litScript : List Char := "<script".data
def litScriptClose : List Char := "</script>".data
def litStyle : List Char := "<style".data
def litStyleClose : List Char := "</style>".data
def litLink : List Char := "<link".data
def litMeta : List Char := "<meta".data
def litTitle : List Char := "<title".data
def litTitleClose : List Char := "</title>".data
def litAnchor : List Char := "<a".data
def litHtmlTag : List Char := "<html".data
def litHrefEq : List Char := "href=".data
def litNameEq : List Char := "name=".data
def litContentEq : List Char := "content=".data
def litRelEq : List Char := "rel=".data
def litTypeEq : List Char := "type=".data
def litPropertyEq : List Char := "property=".data
def litAlt : List Char := "alt".data
def litViewport : List Char := "viewport".data
def litDescriptionWord : List Char := "description".data
def litStylesheet : List Char := "stylesheet".data
def litCanonical : List Char := "canonical".data
def litRobots : List Char := "robots".data
def litOgColon : List Char := "og:".data
def litLdJson : List Char := "application/ld+json".data
def litItemscope : List Char := "itemscope".data
def litItemtype : List Char := "itemtype".data
def litLangEq : List Char := "lang=".data
def litCharset : List Char := "charset".data
def litHttp : List Char := "http".data
def litHash : List Char := "#".data
def litSlash : List Char := "/".data
def litHttpsScheme : List Char := "https://".data
def litHttpScheme : List Char := "http://".data

/-! ### Embedding of the worker's regular expressions

Each hand-written regex of `extractMetrics` is embedded as a scanner with
JavaScript matching semantics: a global match repeatedly takes the leftmost
match and resumes after it; a failed attempt advances one position. -/

/-- Matches `<lit[^>]*>` (case-insensitively) at the head of `s`:
the literal, a run of non-`>` characters, then `>`.
Returns the matched text and the remainder. -/
def matchOpenTag (lit : List Char) (s : List Char) :
    Option (List Char × List Char) :=
  if startsWithCI lit s then
    match (s.drop lit.length).dropWhile (fun c => !(c == '>')) with
    | _ :: rest2 =>
      some (s.take lit.length ++
        (s.drop lit.length).takeWhile (fun c => !(c == '>')) ++ ['>'], rest2)
    | [] => none
  else none

/-- Global scanning (`String.prototype.match` with the `g` flag): apply
`step` at each position from the left; a match is consumed, a failure
advances one character.  Every step of this file consumes at least one
character, so `fuel := s.length` runs the scan to completion. -/
def scanAll {α : Type} (step : List Char → Option (α × List Char)) :
    Nat → List Char → List α
  | 0, _ => []
  | _ + 1, [] => []
  | fuel + 1, s@(_ :: tail) =>
    match step s with
    | some (a, rest) => a :: scanAll step fuel rest
    | none => scanAll step fuel tail

/-- Matches `openLit[^>]*>([^<]*)closeLit`, the shape of the worker's
`<h1[^>]*>([^<]*)<\/h1>` and `<title[^>]*>([^<]*)<\/title>` patterns.
Returns the full match together with the captured text. -/
def taggedTextStep (openLit closeLit : List Char) (s : List Char) :
    Option ((List Char × List Char) × List Char) :=
  match matchOpenTag openLit s with
  | some (opened, rest1) =>
    if startsWithCI closeLit (rest1.dropWhile (fun c => !(c == '<'))) then
      some ((opened ++ rest1.takeWhile (fun c => !(c == '<')) ++
          (rest1.dropWhile (fun c => !(c == '<'))).take closeLit.length,
        rest1.takeWhile (fun c => !(c == '<'))),
        (rest1.dropWhile (fun c => !(c == '<'))).drop closeLit.length)
    else none
  | none => none

/-- Matches `name=["']value["']` at the head of `s` (either quote on either
side, as the `["']` class allows). -/
def quoteAttr (name value : List Char) (s : List Char) : Bool :=
  startsWithCI name s &&
    (match s.drop name.length with
     | q :: r =>
       isQuote q && startsWithCI value r &&
         (match r.drop value.length with
          | q2 :: _ => isQuote q2
          | [] => false)
     | [] => false)

/-- Searches the `>`-free region at the head of `s` for a position where
`inner` matches: the backtracking of a `[^>]*` bridge between an opening
tag literal and an attribute pattern that itself contains no `>`. -/
def inTagSearch (inner : List Char → Bool) : List Char → Bool
  | [] => false
  | s@(c :: cs) => if inner s then true else if c == '>' then false
      else inTagSearch inner cs

/-- `RegExp.test` for the worker's presence patterns
`openLit[^>]*⟨inner⟩`: does any position start an opening literal whose
`>`-free attribute region satisfies `inner`? -/
def testTagWith (openLit : List Char) (inner : List Char → Bool) :
    List Char → Bool
  | [] => false
  | s@(_ :: cs) =>
    (startsWithCI openLit s && inTagSearch inner (s.drop openLit.length)) ||
      testTagWith openLit inner cs

/-- One global step of `<link[^>]*rel=["']stylesheet["'][^>]*>`: the match,
when it exists, always ends at the first `>` after `<link`. -/
def stylesheetStep (s : List Char) : Option (Unit × List Char) :=
  if startsWithCI litLink s then
    let afterOpen := s.drop litLink.length
    if inTagSearch (fun t => quoteAttr litRelEq litStylesheet t) afterOpen then
      match afterOpen.dropWhile (fun c => !(c == '>')) with
      | _ :: rest2 => some ((), rest2)
      | [] => none
    else none
  else none

/-- Matches `href=["']([^"']*)["']` at the head of `s`: returns the
consumed text, the captured value and the remainder. -/
def hrefAt (s : List Char) : Option (List Char × List Char × List Char) :=
  if startsWithCI litHrefEq s then
    match s.drop 5 with
    | q :: r =>
      if isQuote q then
        let v := r.takeWhile (fun c => !(isQuote c))
        match r.dropWhile (fun c => !(isQuote c)) with
        | q2 :: rest => some (s.take 5 ++ q :: (v ++ [q2]), v, rest)
        | [] => none
      else none
    | [] => none
  else none

/-- The backtracking search of `[^>]*href=["']([^"']*)["']`: a greedy
`[^>]*` tries the longest bridge first, so the LAST position in the
`>`-free region where `hrefAt` succeeds wins.  Returns the characters
consumed from the head of `s` through the closing quote, the capture,
and the remainder. -/
def hrefInTagLast : List Char → Option (List Char × List Char × List Char)
  | [] => none
  | s@(c :: cs) =>
    if c == '>' then none
    else
      match hrefInTagLast cs with
      | some (pre, cap, rest) => some (c :: pre, cap, rest)
      | none =>
        match hrefAt s with
        | some (consumed, cap, rest) => some (consumed, cap, rest)
        | none => none

/-- The first match of `/href=["']([^"']*)["']/i` anywhere in `s`
(the per-link re-match at worker.ts 381), returning the capture. -/
def findFirstHref : List Char → Option (List Char)
  | [] => none
  | s@(_ :: cs) =>
    match hrefAt s with
    | some (_, cap, _) => some cap
    | none => findFirstHref cs

/-- One global step of `<a[^>]*href=["']([^"']*)["']` (worker.ts 375). -/
def anchorStep (s : List Char) : Option (List Char × List Char) :=
  if startsWithCI litAnchor s then
    match hrefInTagLast (s.drop litAnchor.length) with
    | some (pre, _, rest) => some (s.take litAnchor.length ++ pre, rest)
    | none => none
  else none

/-- Matches `alt\s*=\s*["'][^"']+["']` at the head of `s`
(a non-empty quoted alt value). -/
def altAt (s : List Char) : Bool :=
  startsWithCI litAlt s &&
    (match (s.drop 3).dropWhile isJsWs with
     | '=' :: r2 =>
       (match r2.dropWhile isJsWs with
        | q :: r4 =>
          isQuote q &&
            (let v := r4.takeWhile (fun c => !(isQuote c))
             !v.isEmpty &&
               (match r4.dropWhile (fun c => !(isQuote c)) with
                | _ :: _ => true
                | [] => false))
        | [] => false)
     | _ => false)

/-- `/alt\s*=\s*["'][^"']+["']/i.test(tag)` (worker.ts 348). -/
def altTest (tag : List Char) : Bool := existsAt altAt tag

/-- The attribute pattern `property=["']og:` of the Open Graph test. -/
def ogInner (t : List Char) : Bool :=
  startsWithCI litPropertyEq t &&
    (match t.drop litPropertyEq.length with
     | q :: r => isQuote q && startsWithCI litOgColon r
     | [] => false)

/-- One match attempt of the meta-description pattern
`<meta\s+name=["']description["']\s+content=["']([^"']*)["']`
(worker.ts 336), returning the capture. -/
def descStep (s : List Char) : Option (List Char × List Char) :=
  if startsWithCI litMeta s then
    let r0 := s.drop litMeta.length
    if (r0.takeWhile isJsWs).isEmpty then none
    else
      let r1 := r0.dropWhile isJsWs
      if quoteAttr litNameEq litDescriptionWord r1 then
        let r2 := r1.drop (litNameEq.length + 1 + litDescriptionWord.length + 1)
        if (r2.takeWhile isJsWs).isEmpty then none
        else
          let r3 := r2.dropWhile isJsWs
          if startsWithCI litContentEq r3 then
            match r3.drop litContentEq.length with
            | q :: r4 =>
              if isQuote q then
                let v := r4.takeWhile (fun c => !(isQuote c))
                match r4.dropWhile (fun c => !(isQuote c)) with
                | _ :: rest => some (v, rest)
                | [] => none
              else none
            | [] => none
          else none
      else none
  else none

theorem length_dropWhile_le {α : Type} (p : α → Bool) (l : List α) :
    (l.dropWhile p).length ≤ l.length := by
  induction l with
  | nil => simp
  | cons a l ih =>
    rw [List.dropWhile_cons]
    split
    · exact Nat.le_succ_of_le ih
    · exact Nat.le_refl _

/-- `tag.replace(/<[^>]*>/g, '')` (worker.ts 344): delete every maximal
`<`-to-`>` span (fuelled; callers pass the text length). -/
def stripTagsEmpty : Nat → List Char → List Char
  | 0, s => s
  | _ + 1, [] => []
  | fuel + 1, c :: cs =>
    if c == '<' then
      match cs.dropWhile (fun x => !(x == '>')) with
      | _ :: rest2 => stripTagsEmpty fuel rest2
      | [] => c :: stripTagsEmpty fuel cs
    else c :: stripTagsEmpty fuel cs

/-- `html.replace(/<[^>]+>/g, ' ')` (worker.ts 404): each nonempty tag
becomes a single space (fuelled; callers pass the text length). -/
def stripTagsSpace : Nat → List Char → List Char
  | 0, s => s
  | _ + 1, [] => []
  | fuel + 1, c :: cs =>
    if c == '<' then
      let inner := cs.takeWhile (fun x => !(x == '>'))
      match cs.dropWhile (fun x => !(x == '>')) with
      | _ :: rest2 =>
        if inner.isEmpty then c :: stripTagsSpace fuel cs
        else ' ' :: stripTagsSpace fuel rest2
      | [] => c :: stripTagsSpace fuel cs
    else c :: stripTagsSpace fuel cs

/-- Drop everything through the first case-insensitive occurrence of `pat`:
the lazy `[\s\S]*?pat` tail of the script/style block patterns. -/
def dropThroughCI (pat : List Char) : List Char → Option (List Char)
  | [] => none
  | s@(_ :: cs) =>
    if startsWithCI pat s then some (s.drop pat.length)
    else dropThroughCI pat cs

/-- `html.replace(/<script[^>]*>[\s\S]*?<\/script>/gi, '')` and its style
twin (worker.ts 402-403), fuelled. -/
def removeBlock (openLit closeLit : List Char) : Nat → List Char → List Char
  | 0, s => s
  | _ + 1, [] => []
  | fuel + 1, s@(c :: cs) =>
    match matchOpenTag openLit s with
    | some (_, rest1) =>
      match dropThroughCI closeLit rest1 with
      | some rest2 => removeBlock openLit closeLit fuel rest2
      | none => c :: removeBlock openLit closeLit fuel cs
    | none => c :: removeBlock openLit closeLit fuel cs

/-- Collapse `\s+` runs to one space, then the two-pointer squeeze. -/
def squeezeSpaces : List Char → List Char
  | [] => []
  | [c] => [c]
  | a :: b :: rest =>
    if a == ' ' && b == ' ' then squeezeSpaces (b :: rest)
    else a :: squeezeSpaces (b :: rest)

/-- `text.replace(/\s+/g, ' ')` (worker.ts 405). -/
def collapseWs (s : List Char) : List Char :=
  squeezeSpaces (s.map (fun c => if isJsWs c then ' ' else c))

/-! ### PageMetrics and extractMetrics (worker.ts 16-43, 331-437) -/

/-- The `PageMetrics` record of worker.ts 16-43. -/
structure PageMetrics where
  url : String
  title : String
  description : String
  h1Count : Nat
  h2Count : Nat
  h3Count : Nat
  imgCount : Nat
  imgWithAltCount : Nat
  scriptCount : Nat
  stylesheetCount : Nat
  inlineStyleCount : Nat
  htmlLength : Nat
  hasViewport : Bool
  hasLang : Bool
  hasCanonical : Bool
  hasRobots : Bool
  hasOpenGraph : Bool
  hasStructuredData : Bool
  hasCharset : Bool
  isHttps : Bool
  linkCount : Nat
  internalLinkCount : Nat
  externalLinkCount : Nat
  hasH1 : Bool
  uniqueH1 : Bool
  textToHtmlRatio : Nat
deriving DecidableEq, Repr

/-- How one anchor's href is bucketed by the loop at worker.ts 380-399. -/
inductive LinkClass
  | internal
  | external
  | neither
deriving DecidableEq, Repr

/-- The classification decisions of worker.ts 384-397 for one href value:
`http`-prefixed hrefs are parsed and bucketed by hostname equality (a
parse failure is silently dropped); otherwise any href that starts with
`/` or does not start with `#` is internal. -/
def classifyHref (href : List Char) (hostname : String) : LinkClass :=
  if jsStartsWith litHttp href then
    match parseURL href with
    | some linkUrl =>
      if linkUrl.hostname = hostname then .internal else .external
    | none => .neither
  else if jsStartsWith litSlash href || !jsStartsWith litHash href then
    .internal
  else .neither

/-- The `forEach` accumulation of internal/external counters
(worker.ts 377-399): re-match the href out of the anchor text, then
bucket it. -/
def linkFold (hostname : String) (acc : Nat × Nat) (link : List Char) :
    Nat × Nat :=
  match findFirstHref link with
  | some href =>
    match classifyHref href hostname with
    | .internal => (acc.1 + 1, acc.2)
    | .external => (acc.1, acc.2 + 1)
    | .neither => acc
  | none => acc

/-- `Math.round(100 * t / n)` on exact rationals (JavaScript computes the
ratio in binary floating point; page-sized inputs round identically). -/
def ratioRound (t n : Nat) : Nat := (200 * t + n) / (2 * n)

/-- The global matches of `<h1[^>]*>([^<]*)<\/h1>` (worker.ts 340):
full match text paired with the captured heading text. -/
def h1Matches (h : List Char) : List (List Char × List Char) :=
  scanAll (taggedTextStep litH1 litH1Close) h.length h

/-- The trimmed captured text of each H1 match: what "the H1 text values"
denotes. -/
def h1Texts (h : List Char) : List (List Char) :=
  (h1Matches h).map (fun pr => trimChars pr.2)

/-- `extractMetrics(html, url)` (worker.ts 331-437).  The one way the
function can fail is the bare `new URL(url)` at worker.ts 376, modelled
by `parseURL`; `none` models the thrown `TypeError`. -/
def extractMetrics (html url : String) : Option PageMetrics :=
  let h := html.data
  let titleMatch := (scanAll (taggedTextStep litTitle litTitleClose) h.length h).head?
  let title := match titleMatch with
    | some m => trimChars m.2
    | none => []
  let descMatch := (scanAll descStep h.length h).head?
  let description := match descMatch with
    | some v => trimChars v
    | none => []
  let h1Tags := h1Matches h
  let h2Tags := scanAll (matchOpenTag litH2) h.length h
  let h3Tags := scanAll (matchOpenTag litH3) h.length h
  let uniqueH1Values :=
    (h1Tags.map (fun tag => trimChars (stripTagsEmpty tag.1.length tag.1))).dedup
  let imgTags := scanAll (matchOpenTag litImg) h.length h
  let imgWithAlt := imgTags.filter altTest
  let scriptTags := scanAll (matchOpenTag litScript) h.length h
  let stylesheetTags := scanAll stylesheetStep h.length h
  let inlineStyles := scanAll (matchOpenTag litStyle) h.length h
  let hasViewport := testTagWith litMeta (fun t => quoteAttr litNameEq litViewport t) h
  let hasCharset := testTagWith litMeta (fun t => startsWithCI litCharset t) h
  let hasCanonical := testTagWith litLink (fun t => quoteAttr litRelEq litCanonical t) h
  let hasRobots := testTagWith litMeta (fun t => quoteAttr litNameEq litRobots t) h
  let hasOpenGraph := testTagWith litMeta ogInner h
  let hasStructuredData :=
    testTagWith litScript (fun t => quoteAttr litTypeEq litLdJson t) h ||
      (containsCI litItemscope h || containsCI litItemtype h)
  let hasLang := testTagWith litHtmlTag (fun t => startsWithCI litLangEq t) h
  let isHttps := jsStartsWith litHttpsScheme url.data
  let linkTags := scanAll anchorStep h.length h
  let noScript := removeBlock litScript litScriptClose h.length h
  let noStyle := removeBlock litStyle litStyleClose noScript.length noScript
  let textContent := trimChars (collapseWs (stripTagsSpace noStyle.length noStyle))
  match parseURL url.data with
  | none => none
  | some urlObj =>
    let counts := linkTags.foldl (linkFold urlObj.hostname) (0, 0)
    some {
      url := url
      title := ⟨title⟩
      description := ⟨description⟩
      h1Count := h1Tags.length
      h2Count := h2Tags.length
      h3Count := h3Tags.length
      imgCount := imgTags.length
      imgWithAltCount := imgWithAlt.length
      scriptCount := scriptTags.length
      stylesheetCount := stylesheetTags.length
      inlineStyleCount := inlineStyles.length
      htmlLength := h.length
      hasViewport := hasViewport
      hasLang := hasLang
      hasCanonical := hasCanonical
      hasRobots := hasRobots
      hasOpenGraph := hasOpenGraph
      hasStructuredData := hasStructuredData
      hasCharset := hasCharset
      isHttps := isHttps
      linkCount := linkTags.length
      internalLinkCount := counts.1
      externalLinkCount := counts.2
      hasH1 := decide (0 < h1Tags.length)
      uniqueH1 := decide (uniqueH1Values.length = 1) && decide (0 < h1Tags.length)
      textToHtmlRatio := if h.length = 0 then 0
        else ratioRound textContent.length h.length }

/-! ### Core Web Vitals normalisation (worker.ts 45-54, 190-300)

Lighthouse quality scores and CrUX percentiles are exact decimal values;
they are modelled as `ℚ`.  Formatting helpers work on numerator and
denominator directly so that concrete values evaluate. -/

inductive VitalStatus
  | good
  | needsImprovement
  | poor
  | unavailable
deriving DecidableEq, Repr

/-- One `{status, value, score?}` entry of the `CoreWebVitals` record. -/
structure VitalEntry where
  status : VitalStatus
  value : String
  score : Option ℚ
deriving DecidableEq, Repr

/-- The `CoreWebVitals` record of worker.ts 45-54. -/
structure CoreWebVitals where
  lcp : VitalEntry
  fid : VitalEntry
  cls : VitalEntry
  fcp : VitalEntry
  ttfb : VitalEntry
  speedIndex : Option ℚ
  performanceScore : Option Int
  source : String
deriving DecidableEq, Repr

/-- One Lighthouse audit (`data.lighthouseResult.audits[...]`). -/
structure Audit where
  score : Option ℚ
  displayValue : Option String
  numericValue : Option ℚ
deriving DecidableEq, Repr

/-- One CrUX field metric (`data.loadingExperience.metrics[...]`). -/
structure FieldMetric where
  percentile : ℚ
deriving DecidableEq, Repr

/-- The audits the worker reads out of the Lighthouse result
(worker.ts 249-254); each may be absent. -/
structure LighthouseAudits where
  largestContentfulPaint : Option Audit
  maxPotentialFid : Option Audit
  cumulativeLayoutShift : Option Audit
  firstContentfulPaint : Option Audit
  serverResponseTime : Option Audit
  speedIndex : Option Audit
deriving DecidableEq, Repr

/-- The field-data entries the worker reads (worker.ts 240-246):
`LARGEST_CONTENTFUL_PAINT_MS`, `FIRST_INPUT_DELAY_MS`,
`CUMULATIVE_LAYOUT_SHIFT_SCORE` and `FIRST_CONTENTFUL_PAINT_MS`. -/
structure LoadingExperienceMetrics where
  largestContentfulPaintMs : Option FieldMetric
  firstInputDelayMs : Option FieldMetric
  cumulativeLayoutShiftScore : Option FieldMetric
  firstContentfulPaintMs : Option FieldMetric
deriving DecidableEq, Repr

/-- The parts of a successful PageSpeed response the worker touches:
`lighthouseResult?.audits`, `loadingExperience?.metrics` and
`lighthouseResult?.categories?.performance?.score`. -/
structure PSResponse where
  audits : Option LighthouseAudits
  loadingExperienceMetrics : Option LoadingExperienceMetrics
  performanceScore : Option ℚ
deriving DecidableEq, Repr

/-- The status thresholds of the `getStatus` helper (worker.ts 223-228). -/
def getStatus (score : Option ℚ) : VitalStatus :=
  match score with
  | none => .unavailable
  | some s =>
    if (9 : ℚ) / 10 ≤ s then .good
    else if (1 : ℚ) / 2 ≤ s then .needsImprovement
    else .poor

/-- `Math.round` on an exact rational: round half toward positive. -/
def jsRound (q : ℚ) : Int := Int.fdiv (2 * q.num + (q.den : Int)) (2 * (q.den : Int))

/-- Left-pad a numeral string with zeros to the requested width. -/
def padZeros (width : Nat) (s : List Char) : List Char :=
  List.replicate (width - s.length) '0' ++ s

/-- `Number.prototype.toFixed(digits)` for the nonnegative exact values
the worker formats (decimal rounding, half away from zero). -/
def toFixed (digits : Nat) (q : ℚ) : String :=
  let p : Int := (10 : Int) ^ digits
  let scaled : Int := Int.fdiv (2 * q.num * p + (q.den : Int)) (2 * (q.den : Int))
  let ip := Int.fdiv scaled p
  let fp := Int.emod scaled p
  ⟨(toString ip).data ++ '.' :: padZeros digits (toString fp).data⟩

/-- The `formatMetric` helper (worker.ts 231-235).  Note the worker calls
it with the unit strings `"ms"` and `""`, neither of which equals
`"millisecond"` or `"unitless"`, so those calls take the last branch. -/
def formatMetric (value : ℚ) (unit : String) : String :=
  if unit = "millisecond" then ⟨(toString (jsRound value)).data ++ "ms".data⟩
  else if unit = "unitless" then toFixed 3 value
  else ⟨(toFixed 2 value).data ++ unit.data⟩

/-- JavaScript `a || b` for an optional string `a`: the empty string is
falsy and also falls through to `b`. -/
def jsOrStr (a : Option String) (b : String) : String :=
  match a with
  | some s => if s = "" then b else s
  | none => b

/-- The normalisation of a successful PageSpeed call
(worker.ts 216-286): statuses and scores come from the Lighthouse (lab)
audits; each `value` is the lab `displayValue` when that is truthy,
otherwise the formatted field percentile, otherwise `"N/A"`. -/
def fetchCoreWebVitalsSuccess (data : PSResponse) : CoreWebVitals :=
  let lighthouseMetrics := data.audits
  let fieldData := data.loadingExperienceMetrics
  let lcp := match fieldData with
    | some fd => fd.largestContentfulPaintMs
    | none => none
  let fid := match fieldData with
    | some fd => fd.firstInputDelayMs
    | none => none
  let cls := match fieldData with
    | some fd => fd.cumulativeLayoutShiftScore
    | none => none
  let fcp := match fieldData with
    | some fd => fd.firstContentfulPaintMs
    | none => none
  let lcpAudit := lighthouseMetrics.bind LighthouseAudits.largestContentfulPaint
  let fidAudit := lighthouseMetrics.bind LighthouseAudits.maxPotentialFid
  let clsAudit := lighthouseMetrics.bind LighthouseAudits.cumulativeLayoutShift
  let fcpAudit := lighthouseMetrics.bind LighthouseAudits.firstContentfulPaint
  let ttfbAudit := lighthouseMetrics.bind LighthouseAudits.serverResponseTime
  let speedIndex := lighthouseMetrics.bind LighthouseAudits.speedIndex
  { lcp := {
      status := getStatus (lcpAudit.bind Audit.score)
      value := jsOrStr (lcpAudit.bind Audit.displayValue)
        (match lcp with
         | some f => formatMetric f.percentile "ms"
         | none => "N/A")
      score := lcpAudit.bind Audit.score }
    fid := {
      status := getStatus (fidAudit.bind Audit.score)
      value := jsOrStr (fidAudit.bind Audit.displayValue)
        (match fid with
         | some f => formatMetric f.percentile "ms"
         | none => "N/A")
      score := fidAudit.bind Audit.score }
    cls := {
      status := getStatus (clsAudit.bind Audit.score)
      value := jsOrStr (clsAudit.bind Audit.displayValue)
        (match cls with
         | some f => formatMetric (f.percentile / 100) ""
         | none => "N/A")
      score := clsAudit.bind Audit.score }
    fcp := {
      status := getStatus (fcpAudit.bind Audit.score)
      value := jsOrStr (fcpAudit.bind Audit.displayValue)
        (match fcp with
         | some f => formatMetric f.percentile "ms"
         | none => "N/A")
      score := fcpAudit.bind Audit.score }
    ttfb := {
      status := getStatus (ttfbAudit.bind Audit.score)
      value := jsOrStr (ttfbAudit.bind Audit.displayValue) "N/A"
      score := ttfbAudit.bind Audit.score }
    speedIndex := speedIndex.bind Audit.numericValue
    performanceScore := match data.performanceScore with
      | some p => if p = 0 then none else some (jsRound (p * 100))
      | none => none
    source := "pagespeed" }

/-- The no-credential outcome (worker.ts 192-201). -/
def noApiKeyVitals : CoreWebVitals :=
  { lcp := ⟨.unavailable, "API key required", none⟩
    fid := ⟨.unavailable, "API key required", none⟩
    cls := ⟨.unavailable, "API key required", none⟩
    fcp := ⟨.unavailable, "API key required", none⟩
    ttfb := ⟨.unavailable, "API key required", none⟩
    speedIndex := none
    performanceScore := none
    source := "unavailable" }

/-- The call-failure outcome (worker.ts 288-299). -/
def measurementFailedVitals : CoreWebVitals :=
  { lcp := ⟨.unavailable, "Measurement failed", none⟩
    fid := ⟨.unavailable, "Measurement failed", none⟩
    cls := ⟨.unavailable, "Measurement failed", none⟩
    fcp := ⟨.unavailable, "Measurement failed", none⟩
    ttfb := ⟨.unavailable, "Measurement failed", none⟩
    speedIndex := none
    performanceScore := none
    source := "unavailable" }

/-- `fetchCoreWebVitals` (worker.ts 190-300): no credential, failed call,
or a successful response. -/
def fetchCoreWebVitals (apiKey : Option String) (result : Option PSResponse) :
    CoreWebVitals :=
  match apiKey with
  | none => noApiKeyVitals
  | some _ =>
    match result with
    | none => measurementFailedVitals
    | some data => fetchCoreWebVitalsSuccess data

/-! ### The fallback scorer (worker.ts 525-577) -/

/-- The `scores` object produced by `createFallbackAnalysis`. -/
structure FallbackScores where
  seo : Nat
  performance : Nat
  accessibility : Nat
  bestPractices : Nat
deriving DecidableEq, Repr

/-- The score computation of `createFallbackAnalysis` (worker.ts 527-549
and 567-572), written as the source's sequence of conditional bumps.
JavaScript's float comparison `imgWithAltCount > imgCount / 2` coincides
with the `Nat` floor-division comparison used here. -/
def createFallbackAnalysisScores (metrics : PageMetrics) : FallbackScores :=
  let seoScore := 50
  let seoScore := if metrics.title ≠ "" then seoScore + 10 else seoScore
  let seoScore := if metrics.description ≠ "" then seoScore + 10 else seoScore
  let seoScore := if metrics.hasH1 then seoScore + 10 else seoScore
  let seoScore := if metrics.hasCanonical then seoScore + 5 else seoScore
  let seoScore := if metrics.hasOpenGraph then seoScore + 5 else seoScore
  let seoScore := if metrics.uniqueH1 then seoScore + 10 else seoScore
  let perfScore := 70
  let perfScore := if metrics.htmlLength < 50000 then perfScore + 10 else perfScore
  let perfScore := if metrics.scriptCount < 10 then perfScore + 10 else perfScore
  let perfScore := if metrics.inlineStyleCount = 0 then perfScore + 10 else perfScore
  let a11yScore := 50
  let a11yScore :=
    if 0 < metrics.imgCount ∧ metrics.imgWithAltCount = metrics.imgCount then
      a11yScore + 30
    else if metrics.imgCount / 2 < metrics.imgWithAltCount then a11yScore + 15
    else a11yScore
  let a11yScore := if metrics.hasLang then a11yScore + 10 else a11yScore
  let a11yScore := if metrics.hasViewport then a11yScore + 10 else a11yScore
  let bp := 60
  let bp := if metrics.isHttps then bp + 15 else bp
  let bp := if metrics.hasCharset then bp + 10 else bp
  let bp := if metrics.hasViewport then bp + 15 else bp
  { seo := min seoScore 100
    performance := min perfScore 100
    accessibility := min a11yScore 100
    bestPractices := min bp 100 }

/-- The SEO point table as the specification words it. -/
def specSeoScore (m : PageMetrics) : Nat :=
  min (50 + (if m.title ≠ "" then 10 else 0) + (if m.description ≠ "" then 10 else 0)
    + (if m.hasH1 then 10 else 0) + (if m.hasCanonical then 5 else 0)
    + (if m.hasOpenGraph then 5 else 0) + (if m.uniqueH1 then 10 else 0)) 100

/-- The performance point table as the specification words it. -/
def specPerformanceScore (m : PageMetrics) : Nat :=
  min (70 + (if m.htmlLength < 50000 then 10 else 0)
    + (if m.scriptCount < 10 then 10 else 0)
    + (if m.inlineStyleCount = 0 then 10 else 0)) 100

/-- The accessibility point table as the specification words it
(the alt-coverage test `imgWithAltCount > imgCount / 2` stated in exact
arithmetic). -/
def specAccessibilityScore (m : PageMetrics) : Nat :=
  min (50 +
    (if 0 < m.imgCount ∧ m.imgWithAltCount = m.imgCount then 30
     else if m.imgCount < 2 * m.imgWithAltCount then 15 else 0)
    + (if m.hasLang then 10 else 0) + (if m.hasViewport then 10 else 0)) 100

/-- The best-practices point table as the specification words it. -/
def specBestPracticesScore (m : PageMetrics) : Nat :=
  min (60 + (if m.isHttps then 15 else 0) + (if m.hasCharset then 10 else 0)
    + (if m.hasViewport then 15 else 0)) 100

/-! ### The history Durable Object (inspector-do.ts) -/

/-- The `Report` record of inspector-do.ts 5-40. -/
structure Report where
  id : String
  url : String
  title : String
  description : String
  reportText : String
  metrics : PageMetrics
  createdAt : String
deriving DecidableEq, Repr

/-- The log update of `addReport` (inspector-do.ts 77-83): unshift the
new report, then truncate to the 50 most recent when over the cap. -/
def addReport (report : Report) (reports : List Report) : List Report :=
  let reports1 := report :: reports
  if 50 < reports1.length then reports1.take 50 else reports1

/-- `listReports` (inspector-do.ts 92-96) serialises the in-memory log
as is. -/
def listReports (reports : List Report) : List Report := reports

/-- In-memory log plus what the storage layer currently holds under the
`reports` key. -/
structure DOState where
  reports : List Report
  stored : List Report
deriving DecidableEq

/-- What `fetch` answers for a `/add` call: the success body, or the
500-class error produced when `state.storage.put` throws
(inspector-do.ts 66-71, 85). -/
inductive AddResult
  | success
  | storeError
deriving DecidableEq, Repr

/-- One `/add` round trip (inspector-do.ts 74-90): the in-memory log is
updated first; then the whole log is written to storage.  When the write
throws, the handler's catch turns it into an error response, and the
in-memory update is not rolled back. -/
def addReportDO (putSucceeds : Bool) (report : Report) (s : DOState) :
    DOState × AddResult :=
  let newReports := addReport report s.reports
  if putSucceeds then ({ reports := newReports, stored := newReports }, .success)
  else ({ reports := newReports, stored := s.stored }, .storeError)

/-- A sequence of successful `/add` calls against an empty log. -/
def runAdds (rs : List Report) : List Report :=
  rs.foldl (fun log r => addReport r log) []

/-- The hrefs the link loop actually classifies: the anchor matches of the
markup, re-matched for their href capture. -/
def anchorHrefs (h : List Char) : List (List Char) :=
  (scanAll anchorStep h.length h).filterMap findFirstHref

/-- The URL validation of `handleAnalyze` (worker.ts 103): nonempty and
`http://`- or `https://`-prefixed. -/
def urlValidation (targetUrl : String) : Bool :=
  !(targetUrl = "") &&
    (jsStartsWith litHttpScheme targetUrl.data ||
      jsStartsWith litHttpsScheme targetUrl.data)

/-- The value-selection rule as the specification words it: prefer the
field (real-user) measurement when present, fall back to the lab value
only otherwise.  Stated for comparison with the implementation. -/
def specFieldFirstValue (field : Option FieldMetric) (labDisplay : Option String)
    (unit : String) : String :=
  match field with
  | some f => formatMetric f.percentile unit
  | none => jsOrStr labDisplay "N/A"

/-- A zero `PageMetrics`, the base for synthetic reports. -/
def emptyMetrics : PageMetrics :=
  ⟨"", "", "", 0, 0, 0, 0, 0, 0, 0, 0, 0, false, false, false, false, false,
    false, false, false, 0, 0, 0, false, false, 0⟩

/-- A synthetic report with a numbered id. -/
def mkReport (n : Nat) : Report :=
  ⟨toString n, "", "", "", "", emptyMetrics, ""⟩

/-- The metrics of the specification's section-8 scenario: no title, no
description, one H1, three images none with alt, two scripts, no inline
styles, no lang, viewport and charset present, an https source URL. -/
def scenarioMetrics : PageMetrics :=
  ⟨"https://example.com", "", "", 1, 0, 0, 3, 0, 2, 0, 0, 500, true, false,
    false, false, false, false, true, true, 0, 0, 0, true, true, 0⟩

/-! ### Helper lemmas -/

theorem addReport_eq_take (r : Report) (log : List Report) :
    addReport r log = (r :: log).take 50 := by
  simp only [addReport]
  split_ifs with h
  · rfl
  · rw [List.take_of_length_le]
    simp only [List.length_cons] at h ⊢
    omega

theorem addReport_length_le (r : Report) (log : List Report) :
    (addReport r log).length ≤ 50 := by
  rw [addReport_eq_take]
  simp only [List.length_take]
  omega

theorem foldl_addReport (rs : List Report) (acc : List Report)
    (hacc : acc.length ≤ 50) :
    rs.foldl (fun log r => addReport r log) acc = (rs.reverse ++ acc).take 50 := by
  induction rs generalizing acc with
  | nil =>
    simp only [List.foldl_nil, List.reverse_nil, List.nil_append]
    rw [List.take_of_length_le hacc]
  | cons r rs ih =>
    rw [List.foldl_cons, ih _ (addReport_length_le r acc), addReport_eq_take,
      List.reverse_cons, List.append_assoc, List.take_append_eq_append_take,
      List.take_append_eq_append_take, List.take_take]
    congr 2
    omega

/-- Bucket counting: folding `linkFold` over the anchor list counts, on
top of the accumulator, the classified-internal and classified-external
hrefs. -/
theorem foldl_linkFold (hostname : String) (links : List (List Char))
    (a b : Nat) :
    links.foldl (linkFold hostname) (a, b) =
      (a + (links.filterMap findFirstHref).countP
          (fun href => decide (classifyHref href hostname = LinkClass.internal)),
        b + (links.filterMap findFirstHref).countP
          (fun href => decide (classifyHref href hostname = LinkClass.external))) := by
  induction links generalizing a b with
  | nil => simp
  | cons l ls ih =>
    rw [List.foldl_cons]
    cases hf : findFirstHref l with
    | none =>
      simp only [linkFold, hf, List.filterMap_cons, ih]
    | some href =>
      cases hc : classifyHref href hostname <;>
        simp only [linkFold, hf, hc, List.filterMap_cons, ih,
          List.countP_cons, decide_eq_true_eq] <;>
        simp [Prod.ext_iff] <;>
        omega

/-- Every element produced by a `scanAll` scan satisfies any property the
step function guarantees of its matches. -/
theorem scanAll_mem {α : Type} {step : List Char → Option (α × List Char)}
    {P : α → Prop} (hstep : ∀ s a r, step s = some (a, r) → P a) :
    ∀ (fuel : Nat) (s : List Char), ∀ a ∈ scanAll step fuel s, P a := by
  intro fuel
  induction fuel with
  | zero =>
    intro s a ha
    simp [scanAll] at ha
  | succ n ih =>
    intro s a ha
    match s with
    | [] => simp [scanAll] at ha
    | c :: cs =>
      cases hs : step (c :: cs) with
      | none =>
        simp only [scanAll, hs] at ha
        exact ih cs a ha
      | some pr =>
        simp only [scanAll, hs] at ha
        rcases List.mem_cons.mp ha with rfl | hmem
        · exact hstep _ _ _ hs
        · exact ih _ _ hmem

theorem startsWithCI_cons {p : Char} {ps : List Char} {s : List Char}
    (h : startsWithCI (p :: ps) s = true) :
    ∃ c t, s = c :: t ∧ lcChar c = lcChar p ∧ startsWithCI ps t = true := by
  cases s with
  | nil => simp [startsWithCI] at h
  | cons c t =>
    rw [startsWithCI, Bool.and_eq_true, beq_iff_eq] at h
    exact ⟨c, t, rfl, h.1, h.2⟩

theorem dropWhile_append_of_all {p : Char → Bool} {l1 l2 : List Char}
    (h : ∀ c ∈ l1, p c = true) :
    (l1 ++ l2).dropWhile p = l2.dropWhile p := by
  induction l1 with
  | nil => rfl
  | cons a l ih =>
    rw [List.cons_append, List.dropWhile_cons, if_pos (h a (by simp))]
    exact ih (fun c hc => h c (by simp [hc]))

theorem stripTagsEmpty_nil (fuel : Nat) : stripTagsEmpty fuel [] = [] := by
  cases fuel <;> rfl

/-- Deleting one complete tag `'<' :: mid ++ ['>']` costs one fuel. -/
theorem stripTagsEmpty_tag (mid tail : List Char)
    (hmid : ∀ c ∈ mid, ¬(c = '>')) (fuel : Nat) :
    stripTagsEmpty (fuel + 1) ('<' :: (mid ++ '>' :: tail)) =
      stripTagsEmpty fuel tail := by
  have hd : (mid ++ '>' :: tail).dropWhile (fun x => !(x == '>')) = '>' :: tail := by
    rw [dropWhile_append_of_all, List.dropWhile_cons, if_neg]
    · simp
    · intro c hc
      simpa using hmid c hc
  simp only [stripTagsEmpty, hd]
  rfl

/-- Text free of `<` passes through `stripTagsEmpty` unchanged, costing
its own length in fuel. -/
theorem stripTagsEmpty_text (pre : List Char)
    (hpre : ∀ c ∈ pre, ¬(c = '<')) (tail : List Char) (fuel : Nat) :
    stripTagsEmpty (pre.length + fuel) (pre ++ tail) =
      pre ++ stripTagsEmpty fuel tail := by
  induction pre with
  | nil => simp
  | cons a l ih =>
    have ha : ¬(a = '<') := hpre a (by simp)
    have hl : ∀ c ∈ l, ¬(c = '<') := fun c hc => hpre c (by simp [hc])
    have harith : (a :: l).length + fuel = (l.length + fuel) + 1 := by
      simp only [List.length_cons]
      omega
    rw [harith, List.cons_append]
    simp only [stripTagsEmpty]
    rw [if_neg (by simpa using ha)]
    rw [ih hl, List.cons_append]

/-- The strip-then-trim pipeline of worker.ts 344 recovers exactly the
captured heading text: stripping `<[^>]*>` from a full
`<h1...>text</h1>` match leaves `text`. -/
theorem taggedTextStep_strip {s full cap rest : List Char}
    (h : taggedTextStep litH1 litH1Close s = some ((full, cap), rest)) :
    stripTagsEmpty full.length full = cap := by
  unfold taggedTextStep at h
  cases hm : matchOpenTag litH1 s with
  | none =>
    rw [hm] at h
    simp at h
  | some pr =>
    obtain ⟨opened, rest1⟩ := pr
    rw [hm] at h
    dsimp only at h
    by_cases hc : startsWithCI litH1Close (rest1.dropWhile (fun c => !(c == '<'))) = true
    case neg =>
      rw [if_neg hc] at h
      simp at h
    case pos =>
      rw [if_pos hc] at h
      simp only [Option.some.injEq, Prod.mk.injEq] at h
      obtain ⟨⟨hfull, hcap⟩, _⟩ := h
      -- decompose the opening-tag match
      unfold matchOpenTag at hm
      by_cases hsw : startsWithCI litH1 s = true
      case neg =>
        rw [if_neg hsw] at hm
        simp at hm
      case pos =>
        rw [if_pos hsw] at hm
        have hlit : litH1 = '<' :: 'h' :: '1' :: [] := rfl
        rw [hlit] at hsw
        obtain ⟨a, t1, rfl, hA, hsw1⟩ := startsWithCI_cons hsw
        obtain ⟨b, t2, rfl, hB, hsw2⟩ := startsWithCI_cons hsw1
        obtain ⟨c, t3, rfl, hC, _⟩ := startsWithCI_cons hsw2
        have ha : a = '<' := lcChar_eq_lt (by rw [hA]; decide)
        have hbne : ¬(b = '>') := by
          intro hb
          rw [hb] at hB
          simp [lcChar] at hB
        have hcne : ¬(c = '>') := by
          intro hcc
          rw [hcc] at hC
          simp [lcChar] at hC
        cases hrest : ((a :: b :: c :: t3).drop litH1.length).dropWhile
            (fun ch => !(ch == '>')) with
        | nil =>
          rw [hrest] at hm
          simp at hm
        | cons g rest2' =>
          rw [hrest] at hm
          simp only [Option.some.injEq, Prod.mk.injEq] at hm
          obtain ⟨hopened, _⟩ := hm
          -- decompose the closing-tag match
          have hlit2 : litH1Close = '<' :: '/' :: 'h' :: '1' :: '>' :: [] := rfl
          rw [hlit2] at hc
          obtain ⟨d0, u1, hre, hD0, hc1⟩ := startsWithCI_cons hc
          obtain ⟨d1, u2, rfl, hD1, hc2⟩ := startsWithCI_cons hc1
          obtain ⟨d2, u3, rfl, hD2, hc3⟩ := startsWithCI_cons hc2
          obtain ⟨d3, u4, rfl, hD3, hc4⟩ := startsWithCI_cons hc3
          obtain ⟨d4, u5, rfl, hD4, _⟩ := startsWithCI_cons hc4
          have hd0 : d0 = '<' := lcChar_eq_lt (by rw [hD0]; decide)
          have hd1ne : ¬(d1 = '>') := by
            intro hx
            rw [hx] at hD1
            simp [lcChar] at hD1
          have hd2ne : ¬(d2 = '>') := by
            intro hx
            rw [hx] at hD2
            simp [lcChar] at hD2
          have hd3ne : ¬(d3 = '>') := by
            intro hx
            rw [hx] at hD3
            simp [lcChar] at hD3
          have hd4 : d4 = '>' := lcChar_eq_gt (by rw [hD4]; decide)
          -- name the pieces
          set inner := ((a :: b :: c :: t3).drop litH1.length).takeWhile
            (fun ch => !(ch == '>')) with hinner
          have hinner_ne : ∀ ch ∈ inner, ¬(ch = '>') := by
            intro ch hch
            have := List.mem_takeWhile_imp hch
            simpa using this
          have hcap_ne : ∀ ch ∈ cap, ¬(ch = '<') := by
            intro ch hch
            rw [← hcap] at hch
            have := List.mem_takeWhile_imp hch
            simpa using this
          -- the closing five characters
          have htake : (rest1.dropWhile (fun ch => !(ch == '<'))).take
              litH1Close.length = d0 :: d1 :: d2 :: d3 :: d4 :: [] := by
            rw [hre]
            rfl
          have htk : List.take litH1.length (a :: b :: c :: t3) = a :: b :: c :: [] := rfl
          -- assemble the full match in tag/text/tag shape
          have hshape : full = '<' :: ((b :: c :: inner) ++ '>' ::
              (cap ++ ('<' :: ((d1 :: d2 :: d3 :: []) ++ '>' :: [])))) := by
            rw [← hfull, ← hopened, htk, htake, hcap, ha, hd0, hd4]
            simp
          have hmid : ∀ ch ∈ b :: c :: inner, ¬(ch = '>') := by
            intro ch hch
            simp only [List.mem_cons] at hch
            rcases hch with rfl | rfl | hch
            · exact hbne
            · exact hcne
            · exact hinner_ne _ hch
          have hmid3 : ∀ ch ∈ d1 :: d2 :: d3 :: [], ¬(ch = '>') := by
            intro ch hch
            simp only [List.mem_cons] at hch
            rcases hch with rfl | rfl | rfl | hch
            · exact hd1ne
            · exact hd2ne
            · exact hd3ne
            · simp at hch
          have hlen : full.length =
              ((cap.length + (inner.length + 7)) + 1) + 1 := by
            rw [hshape]
            simp only [List.length_cons, List.length_append, List.length_nil]
            omega
          rw [hlen, hshape, stripTagsEmpty_tag _ _ hmid]
          have harith : cap.length + (inner.length + 7) + 1 =
              cap.length + ((inner.length + 7) + 1) := by omega
          rw [harith, stripTagsEmpty_text cap hcap_ne]
          rw [stripTagsEmpty_tag _ _ hmid3]
          rw [stripTagsEmpty_nil, List.append_nil]

/-- The worker's strip-based H1 text list coincides with the capture-based
`h1Texts`. -/
theorem h1_values_eq (h : List Char) :
    (h1Matches h).map (fun tag => trimChars (stripTagsEmpty tag.1.length tag.1)) =
      h1Texts h := by
  unfold h1Texts
  apply List.map_congr_left
  intro pr hpr
  have hstrip : stripTagsEmpty pr.1.length pr.1 = pr.2 := by
    have := @scanAll_mem (List Char × List Char)
      (taggedTextStep litH1 litH1Close)
      (fun q => stripTagsEmpty q.1.length q.1 = q.2)
      (fun s a r ha => taggedTextStep_strip (by rw [ha]))
      h.length h pr hpr
    exact this
  rw [hstrip]

/-! ### Claim C3: the status thresholds -/

/-- C3: for a 0-1 quality score, `getStatus` maps a score of at least 0.9
to good, a score in [0.5, 0.9) to needs-improvement, a present score
below 0.5 to poor, and an absent score to unavailable; in particular
0.95 is good, 0.70 needs improvement and 0.30 poor. -/
theorem getStatus_thresholds (s : ℚ) (h0 : 0 ≤ s) (h1 : s ≤ 1) :
    ((9 : ℚ) / 10 ≤ s → getStatus (some s) = .good) ∧
      ((1 : ℚ) / 2 ≤ s → s < (9 : ℚ) / 10 →
        getStatus (some s) = .needsImprovement) ∧
      (s < (1 : ℚ) / 2 → getStatus (some s) = .poor) ∧
      getStatus none = .unavailable ∧
      getStatus (some ((95 : ℚ) / 100)) = .good ∧
      getStatus (some ((70 : ℚ) / 100)) = .needsImprovement ∧
      getStatus (some ((30 : ℚ) / 100)) = .poor := by
  refine ⟨?_, ?_, ?_, rfl, ?_, ?_, ?_⟩
  · intro hs
    simp only [getStatus]
    rw [if_pos hs]
  · intro hs1 hs2
    simp only [getStatus]
    rw [if_neg (by linarith), if_pos hs1]
  · intro hs
    simp only [getStatus]
    rw [if_neg (by linarith), if_neg (by linarith)]
  · simp only [getStatus]
    rw [if_pos (by norm_num)]
  · simp only [getStatus]
    rw [if_neg (by norm_num), if_pos (by norm_num)]
  · simp only [getStatus]
    rw [if_neg (by norm_num), if_neg (by norm_num)]

theorem getStatus_thresholds_witness :
    getStatus (some ((95 : ℚ) / 100)) = .good ∧
      getStatus none = .unavailable :=
  ⟨(getStatus_thresholds ((95 : ℚ) / 100) (by norm_num) (by norm_num)).1
      (by norm_num),
    (getStatus_thresholds ((95 : ℚ) / 100) (by norm_num)
      (by norm_num)).2.2.2.1⟩

/-! ### Claim C2: lab values shadow field values -/

/-- A successful PageSpeed response carrying BOTH a field (real-user)
LCP percentile and a lab LCP audit with a display value. -/
def c2LabAudits : LighthouseAudits where
  largestContentfulPaint := some ⟨some 1, some "2.5 s", none⟩
  maxPotentialFid := none
  cumulativeLayoutShift := none
  firstContentfulPaint := none
  serverResponseTime := none
  speedIndex := none

def c2FieldData : LoadingExperienceMetrics where
  largestContentfulPaintMs := some ⟨1200⟩
  firstInputDelayMs := none
  cumulativeLayoutShiftScore := none
  firstContentfulPaintMs := none

def c2Response : PSResponse := ⟨some c2LabAudits, some c2FieldData, none⟩

/-- C2: the claim (and the worker's own comment at worker.ts 237) says the
field measurement is preferred when present; but at a response carrying
both, the reported LCP value is the lab `displayValue` `"2.5 s"`, not the
field-first `"1200.00ms"`: the `||` chain at worker.ts 260 consults the
lab value first. -/
theorem fetchCoreWebVitals_prefers_lab_value :
    (c2Response.loadingExperienceMetrics.bind
        LoadingExperienceMetrics.largestContentfulPaintMs).isSome = true ∧
      (fetchCoreWebVitalsSuccess c2Response).lcp.value = "2.5 s" ∧
      specFieldFirstValue (some ⟨1200⟩) (some "2.5 s") "ms" = "1200.00ms" ∧
      (fetchCoreWebVitalsSuccess c2Response).lcp.value ≠
        specFieldFirstValue (some ⟨1200⟩) (some "2.5 s") "ms" := by
  decide

/-! ### Claim C4: the fallback point table -/

/-- C4: the fallback scorer computes the four scores exactly per the
fixed point table (stated by `specSeoScore` and friends, clamped to 100),
and the specification's scenario metrics yield SEO 70, performance 100,
accessibility 60, best-practices 100. -/
theorem createFallbackAnalysis_point_table :
    (∀ m : PageMetrics, createFallbackAnalysisScores m =
        ⟨specSeoScore m, specPerformanceScore m, specAccessibilityScore m,
          specBestPracticesScore m⟩) ∧
      createFallbackAnalysisScores scenarioMetrics = ⟨70, 100, 60, 100⟩ := by
  constructor
  · intro m
    simp only [createFallbackAnalysisScores, specSeoScore, specPerformanceScore,
      specAccessibilityScore, specBestPracticesScore, FallbackScores.mk.injEq]
    refine ⟨?_, ?_, ?_, ?_⟩ <;> split_ifs <;> omega
  · decide

/-! ### Claim C9: score bounds -/

/-- C9: each of the four fallback scores is a natural number at most 100
(hence an integer in [0, 100]) for every `PageMetrics` input. -/
theorem createFallbackAnalysis_score_bounds (m : PageMetrics) :
    ((createFallbackAnalysisScores m).seo ≤ 100 ∧
        (createFallbackAnalysisScores m).performance ≤ 100 ∧
        (createFallbackAnalysisScores m).accessibility ≤ 100 ∧
        (createFallbackAnalysisScores m).bestPractices ≤ 100) ∧
      (0 ≤ (createFallbackAnalysisScores m).seo ∧
        0 ≤ (createFallbackAnalysisScores m).performance ∧
        0 ≤ (createFallbackAnalysisScores m).accessibility ∧
        0 ≤ (createFallbackAnalysisScores m).bestPractices) := by
  simp only [createFallbackAnalysisScores]
  exact ⟨⟨Nat.min_le_right _ _, Nat.min_le_right _ _, Nat.min_le_right _ _,
      Nat.min_le_right _ _⟩,
    ⟨Nat.zero_le _, Nat.zero_le _, Nat.zero_le _, Nat.zero_le _⟩⟩

/-! ### Claim C5: the bounded history log -/

/-- C5: after more than 50 sequential adds, the listed log is exactly the
50 most recently added reports, most recent first, each add being a
prepend followed by truncation to 50. -/
theorem history_bounded_most_recent_first (rs : List Report)
    (h : 50 < rs.length) :
    listReports (runAdds rs) = rs.reverse.take 50 ∧
      (runAdds rs).length = 50 ∧
      ∀ (r : Report) (log : List Report), addReport r log = (r :: log).take 50 := by
  have hmain : runAdds rs = rs.reverse.take 50 := by
    unfold runAdds
    rw [foldl_addReport rs [] (by simp), List.append_nil]
  refine ⟨hmain, ?_, addReport_eq_take⟩
  rw [hmain]
  simp only [List.length_take, List.length_reverse]
  omega

theorem history_bounded_witness :
    50 < ((List.range 51).map mkReport).length ∧
      listReports (runAdds ((List.range 51).map mkReport)) =
        ((List.range 51).map mkReport).reverse.take 50 ∧
      (runAdds ((List.range 51).map mkReport)).length = 50 :=
  ⟨by simp,
    (history_bounded_most_recent_first _ (by simp)).1,
    (history_bounded_most_recent_first _ (by simp)).2.1⟩

/-! ### Claim C8: a failed persistence write -/

/-- C8: when the storage write fails, the caller receives a store-level
error, yet the in-memory log keeps the newly prepended report (no
rollback) while durable storage is unchanged. -/
theorem addReport_persist_failure (report : Report) (s : DOState) :
    (addReportDO false report s).2 = .storeError ∧
      (addReportDO false report s).1.reports.head? = some report ∧
      (addReportDO false report s).1.reports = (report :: s.reports).take 50 ∧
      (addReportDO false report s).1.stored = s.stored := by
  refine ⟨rfl, ?_, ?_, rfl⟩
  · simp [addReportDO, addReport_eq_take]
  · simp [addReportDO, addReport_eq_take]

/-! ### Claim C10: non-http, non-fragment hrefs are internal -/

/-- C10: every href that neither starts with `http` nor with `#` is
counted as internal, including scheme'd hrefs such as `mailto:`, `tel:`
and `javascript:`. -/
theorem nonHttp_nonFragment_internal (href : List Char) (host : String)
    (h1 : jsStartsWith litHttp href = false)
    (h2 : jsStartsWith litHash href = false) :
    classifyHref href host = .internal ∧
      classifyHref ("mailto:someone@example.com".data) host = .internal ∧
      classifyHref ("tel:+15551234567".data) host = .internal ∧
      classifyHref ("javascript:void(0)".data) host = .internal := by
  refine ⟨?_, rfl, rfl, rfl⟩
  simp [classifyHref, h1, h2]

theorem nonHttp_nonFragment_internal_witness :
    classifyHref ("mailto:user@site.org".data) "example.com" = .internal :=
  (nonHttp_nonFragment_internal ("mailto:user@site.org".data) "example.com"
    (by decide) (by decide)).1

/-! ### Claim C1 (counterexample): uniqueH1 does not require exactly one H1 -/

/-- C1 fails as stated: two H1 tags carrying the same text yield
`uniqueH1 = true` (the claim demands false), and so does a single H1 with
empty text. -/
theorem uniqueH1_counterexample :
    (extractMetrics "<h1>Same</h1><h1>Same</h1>" "http://example.com").map
        PageMetrics.h1Count = some 2 ∧
      (extractMetrics "<h1>Same</h1><h1>Same</h1>" "http://example.com").map
        PageMetrics.uniqueH1 = some true ∧
      (extractMetrics "<h1></h1>" "http://example.com").map
        PageMetrics.uniqueH1 = some true := by
  decide

/-! ### Claim C6 (counterexample): extraction can throw on a validated URL -/

/-- C6 fails as stated: `"http://"` passes the `handleAnalyze` prefix
validation, yet `new URL("http://")` at worker.ts 376 throws, so
extraction fails. -/
theorem extractMetrics_error_counterexample :
    urlValidation "http://" = true ∧ extractMetrics "" "http://" = none := by
  decide

/-- C6 amended: for every markup string and every source URL that is
furthermore parseable, extraction returns a `PageMetrics`; and an empty
markup yields the zero/false value for every extracted field. -/
theorem extractMetrics_total_amended :
    (∀ html url, (parseURL url.data).isSome = true →
        (extractMetrics html url).isSome = true) ∧
      extractMetrics "" "http://example.com" = some
        ⟨"http://example.com", "", "", 0, 0, 0, 0, 0, 0, 0, 0, 0, false,
          false, false, false, false, false, false, false, 0, 0, 0, false,
          false, 0⟩ := by
  constructor
  · intro html url hu
    rw [Option.isSome_iff_exists] at hu
    obtain ⟨u, hu⟩ := hu
    simp only [extractMetrics, hu, Option.isSome_some]
  · decide

theorem extractMetrics_total_witness :
    (parseURL ("http://a.com".data)).isSome = true ∧
      (extractMetrics "<p>x</p>" "http://a.com").isSome = true :=
  ⟨by decide, extractMetrics_total_amended.1 "<p>x</p>" "http://a.com" (by decide)⟩

/-! ### Claim C7 (counterexample): non-http absolute URLs are not bucketed
by hostname -/

/-- C7 fails as stated: `ftp://other.example` is a well-formed absolute
URL whose hostname differs from the source hostname, yet it is counted as
internal (the worker only hostname-buckets hrefs that start with the
lowercase literal `http`). -/
theorem absolute_nonHttp_counterexample :
    parseURL ("ftp://other.example".data) = some ⟨"ftp:", "other.example"⟩ ∧
      ("other.example" : String) ≠ "example.com" ∧
      classifyHref ("ftp://other.example".data) "example.com" = .internal := by
  decide

/-- C7 amended: for anchors whose href starts with the lowercase literal
`http`, a parseable URL is bucketed internal exactly when its hostname
equals the source hostname and external otherwise, and a malformed one is
dropped from both buckets; a root-relative path is internal; a pure
fragment is in neither bucket; and the raw link total counts every anchor
match while the buckets count the classified hrefs. -/
theorem link_classification_amended (href : List Char) (host : String)
    (u : URLParts) (html url : String) (uu : URLParts) :
    (jsStartsWith litHttp href = true → parseURL href = some u →
        u.hostname = host → classifyHref href host = .internal) ∧
      (jsStartsWith litHttp href = true → parseURL href = some u →
        u.hostname ≠ host → classifyHref href host = .external) ∧
      (jsStartsWith litHttp href = true → parseURL href = none →
        classifyHref href host = .neither) ∧
      (jsStartsWith litSlash href = true → jsStartsWith litHttp href = false →
        classifyHref href host = .internal) ∧
      (jsStartsWith litHash href = true → classifyHref href host = .neither) ∧
      (parseURL url.data = some uu →
        (extractMetrics html url).map PageMetrics.linkCount =
          some (scanAll anchorStep html.data.length html.data).length ∧
        (extractMetrics html url).map PageMetrics.internalLinkCount =
          some ((anchorHrefs html.data).countP
            (fun h2 => decide (classifyHref h2 uu.hostname = LinkClass.internal))) ∧
        (extractMetrics html url).map PageMetrics.externalLinkCount =
          some ((anchorHrefs html.data).countP
            (fun h2 => decide (classifyHref h2 uu.hostname = LinkClass.external)))) := by
  refine ⟨?_, ?_, ?_, ?_, ?_, ?_⟩
  · intro hh hp he
    simp [classifyHref, hh, hp, he]
  · intro hh hp hne
    simp [classifyHref, hh, hp, hne]
  · intro hh hp
    simp [classifyHref, hh, hp]
  · intro hs hh
    simp [classifyHref, hh, hs]
  · intro hhash
    cases href with
    | nil => simp [jsStartsWith, litHash, List.isPrefixOf] at hhash
    | cons c t =>
      have hc : '#' = c := by
        have : litHash = '#' :: [] := rfl
        rw [this] at hhash
        simpa [jsStartsWith, List.isPrefixOf] using hhash
      subst hc
      simp [classifyHref, jsStartsWith, litHttp, litSlash, litHash,
        List.isPrefixOf]
  · intro hpu
    refine ⟨?_, ?_, ?_⟩ <;>
      simp only [extractMetrics, hpu, Option.map_some', anchorHrefs,
        foldl_linkFold, Nat.zero_add]

theorem link_classification_witness :
    classifyHref ("https://example.com/x".data) "example.com" = .internal ∧
      classifyHref ("https://other.com/".data) "example.com" = .external ∧
      classifyHref ("http://".data) "example.com" = .neither ∧
      classifyHref ("/rel".data) "example.com" = .internal ∧
      classifyHref ("#top".data) "example.com" = .neither ∧
      (extractMetrics "<a href=\"#x\">t</a>" "http://example.com").map
        PageMetrics.linkCount = some 1 ∧
      (extractMetrics "<a href=\"#x\">t</a>" "http://example.com").map
        PageMetrics.internalLinkCount = some 0 := by
  have h6 := (link_classification_amended [] "" ⟨"", ""⟩
    "<a href=\"#x\">t</a>" "http://example.com" ⟨"http:", "example.com"⟩).2.2.2.2.2
    (by decide)
  refine ⟨?_, ?_, ?_, ?_, ?_, ?_, ?_⟩
  · exact (link_classification_amended ("https://example.com/x".data)
      "example.com" ⟨"https:", "example.com"⟩ "" "" ⟨"", ""⟩).1
      (by decide) (by decide) rfl
  · exact (link_classification_amended ("https://other.com/".data)
      "example.com" ⟨"https:", "other.com"⟩ "" "" ⟨"", ""⟩).2.1
      (by decide) (by decide) (by decide)
  · exact (link_classification_amended ("http://".data)
      "example.com" ⟨"", ""⟩ "" "" ⟨"", ""⟩).2.2.1 (by decide) (by decide)
  · exact (link_classification_amended ("/rel".data)
      "example.com" ⟨"", ""⟩ "" "" ⟨"", ""⟩).2.2.2.1 (by decide) (by decide)
  · exact (link_classification_amended ("#top".data)
      "example.com" ⟨"", ""⟩ "" "" ⟨"", ""⟩).2.2.2.2.1 (by decide)
  · exact h6.1.trans (by decide)
  · exact h6.2.1.trans (by decide)

/-- C1 amended: `uniqueH1` is true iff AT LEAST one H1 tag exists and the
number of distinct trimmed H1 text values is 1; an H1 with empty text
counts (the empty string is one distinct value), and duplicate H1 tags
carrying the same text still count as unique. -/
theorem uniqueH1_amended (html url : String)
    (hu : (parseURL url.data).isSome = true) :
    ∃ m, extractMetrics html url = some m ∧
      (m.uniqueH1 = true ↔
        1 ≤ m.h1Count ∧ (h1Texts html.data).dedup.length = 1) := by
  obtain ⟨u, hu⟩ := Option.isSome_iff_exists.mp hu
  cases hmm : extractMetrics html url with
  | none =>
    exfalso
    simp only [extractMetrics, hu] at hmm
    exact Option.noConfusion hmm
  | some m =>
    refine ⟨m, rfl, ?_⟩
    simp only [extractMetrics, hu, Option.some.injEq] at hmm
    subst hmm
    dsimp only
    simp only [h1_values_eq, Bool.and_eq_true, beq_iff_eq, decide_eq_true_eq]
    constructor
    · rintro ⟨hx, hy⟩
      exact ⟨hy, hx⟩
    · rintro ⟨hx, hy⟩
      exact ⟨hy, hx⟩

theorem uniqueH1_amended_witness :
    (parseURL ("http://example.com".data)).isSome = true ∧
      ∃ m, extractMetrics "<h1>One</h1>" "http://example.com" = some m ∧
        (m.uniqueH1 = true ↔
          1 ≤ m.h1Count ∧ (h1Texts ("<h1>One</h1>".data)).dedup.length = 1) :=
  ⟨by decide, uniqueH1_amended "<h1>One</h1>" "http://example.com" (by decide)⟩

end PageAnalyser
